import Mathlib

/-!
# Verification of `mortgage.py`

A shallow embedding of the fixed-rate mortgage calculator in `src/mortgage.py`.

Python floats are modelled as exact rationals (`ℚ`); integer results as `ℤ`/`ℕ`.
Python raises `ZeroDivisionError` on float division by zero (including `0.0/0.0`),
so every division whose denominator can be zero is modelled by an `Option`
(`none` = the exception propagates).  The `while` loop of `remaining_payments`
need not terminate, so it is modelled with an explicit fuel parameter:
`some k` means the loop returns `k` within `fuel` iterations, `none` means it
either needs more iterations or raises inside the body.
-/

namespace Mortgage

/-- Embeds `interest_due` (mortgage.py:36-55): `r = annual_interest_rate /
num_of_payments; i = balance * r`.  `none` models the `ZeroDivisionError`
raised when `num_of_payments = 0`. -/
def interest_due (balance_of_mortgage annual_interest_rate : ℚ)
    (num_of_payments : ℕ := 12) : Option ℚ :=
  if num_of_payments = 0 then none
  else some (balance_of_mortgage * (annual_interest_rate / num_of_payments))

/-- Embeds `get_min_payment` (mortgage.py:10-35): `r = rate/num; n = term*num;
A = P*(r*(1+r)**n) / ((1+r)**n - 1); return ceil(A)`.  `none` models the
`ZeroDivisionError` raised when `num_of_payments = 0` (in `r = rate/num`) or
when the denominator `(1+r)**n - 1` is zero (Python raises on `x/0.0` for
every float `x`, `0.0` included). -/
def get_min_payment (principal annual_interest_rate : ℚ) (term : ℕ := 30)
    (num_of_payments : ℕ := 12) : Option ℤ :=
  if num_of_payments = 0 then none
  else
    let r : ℚ := annual_interest_rate / num_of_payments
    let n : ℕ := term * num_of_payments
    if (1 + r) ^ n - 1 = 0 then none
    else some ⌈principal * (r * (1 + r) ^ n) / ((1 + r) ^ n - 1)⌉

/-- Embeds `remaining_payments` (mortgage.py:56-80).  The Python loop
`while balance > 0: interest = interest_due(...); balance -= target - interest;
payments += 1` is given explicit fuel: `some k` means the loop exits with
counter `k` within `fuel` iterations; `none` means the fuel ran out before
the balance dropped to `≤ 0`, or `interest_due` raised (`num_of_payments = 0`
with a positive balance). -/
def remaining_payments (fuel : ℕ) (balance_of_mortgage annual_interest_rate
    target_payment : ℚ) (num_of_payments : ℕ := 12) : Option ℕ :=
  match fuel with
  | 0 => if balance_of_mortgage ≤ 0 then some 0 else none
  | fuel + 1 =>
    if balance_of_mortgage ≤ 0 then some 0
    else
      match interest_due balance_of_mortgage annual_interest_rate num_of_payments with
      | none => none
      | some interest =>
        (remaining_payments fuel (balance_of_mortgage - (target_payment - interest))
          annual_interest_rate target_payment num_of_payments).map (· + 1)

/-- The two terminal outcomes printed by `main` (mortgage.py:109-119): the
below-minimum warning, or the payoff report with the payment used and the
number of payments. -/
inductive Report where
  | tooLow (min_payment : ℤ)
  | payoff (min_payment : ℤ) (target_payment : ℚ) (total_payments : ℕ)
deriving DecidableEq, Repr

/-- Embeds `main` (mortgage.py:81-119): compute the minimum payment, default a
`None` target to it, then branch on `target_payment < min_payment`.  `none`
models an uncaught exception from `get_min_payment` or a payoff loop that did
not finish within `fuel` iterations. -/
def main (fuel : ℕ) (principal annual_interest_rate : ℚ) (years : ℕ := 30)
    (num_of_payments : ℕ := 12) (target_payment : Option ℚ := none) : Option Report :=
  match get_min_payment principal annual_interest_rate years num_of_payments with
  | none => none
  | some min_payment =>
    let t : ℚ := target_payment.getD (min_payment : ℚ)
    if t < (min_payment : ℚ) then some (Report.tooLow min_payment)
    else
      (remaining_payments fuel principal annual_interest_rate t num_of_payments).map
        (Report.payoff min_payment t)

/-- The namespace produced by `argparse` in `parse_args` (mortgage.py:157-171):
two required floats, two ints with defaults 30 and 12, and an optional float. -/
structure Args where
  mortgage_amount : ℚ
  annual_interest_rate : ℚ
  years : ℤ
  num_annual_payments : ℤ
  target_payment : Option ℚ
deriving DecidableEq, Repr

/-- The validation chain of `parse_args` (mortgage.py:172-183), raise order as
in the source.  The last check is Python's `args.target_payment and
args.target_payment < 0`: `None` and `0.0` are falsy, so only a present,
nonzero, negative target raises. -/
def validate (args : Args) : Except String Args :=
  if args.mortgage_amount < 0 then .error "mortgage amount must be positive"
  else if ¬(0 ≤ args.annual_interest_rate ∧ args.annual_interest_rate ≤ 1) then
    .error "annual interest rate must be between 0 and 1"
  else if args.years < 1 then .error "years must be positive"
  else if args.num_annual_payments < 0 then
    .error "number of payments per year must be positive"
  else
    match args.target_payment with
    | none => .ok args
    | some t =>
      if t ≠ 0 ∧ t < 0 then .error "target payment must be positive" else .ok args

/-- Embeds `parse_args` (mortgage.py:129-183).  The `ArgumentParser` machinery
is the external `argparse` library, abstracted as `argparseOf`; the body calls
`parser.parse_args()` with NO argument (mortgage.py:171), so the namespace is
built from the process-level `sys.argv`, never from the `arglist` parameter,
and then validated. -/
def parse_args (arglist : List String) (sysArgv : List String)
    (argparseOf : List String → Args) : Except String Args :=
  validate (argparseOf sysArgv)

/-- Process outcome of the `__main__` block (mortgage.py:186-192):
`validationError msg` = `sys.exit(str(e))`, i.e. a non-zero exit after
printing only the message; `report r` = `main` printed the report and the
process exits with status 0; `crash` = an exception other than the caught
`ValueError` escaped (stack trace, non-zero exit). -/
inductive ExitResult where
  | validationError (msg : String)
  | report (r : Report)
  | crash
deriving DecidableEq, Repr

/-- Embeds the `__main__` block (mortgage.py:186-192) applied to an
already-parsed namespace: run the validation of `parse_args`, catch
`ValueError` as a clean non-zero exit, otherwise call `main` (whose payoff
loop is given `fuel` iterations; `none` from `main` is an uncaught
exception or an unfinished loop, modelled as `crash`). -/
def runMain (fuel : ℕ) (argv : Args) : ExitResult :=
  match validate argv with
  | .error msg => .validationError msg
  | .ok args =>
    match main fuel args.mortgage_amount args.annual_interest_rate args.years.toNat
        args.num_annual_payments.toNat args.target_payment with
    | none => .crash
    | some r => .report r

/-! ## Helper lemmas about the payoff loop -/

lemma remaining_payments_of_nonpos {b : ℚ} (fuel : ℕ) (r t : ℚ) (F : ℕ)
    (hb : b ≤ 0) : remaining_payments fuel b r t F = some 0 := by
  cases fuel <;> simp [remaining_payments, hb]

lemma remaining_payments_le_fuel {fuel : ℕ} {b r t : ℚ} {F k : ℕ}
    (h : remaining_payments fuel b r t F = some k) : k ≤ fuel := by
  induction fuel generalizing b k with
  | zero =>
    by_cases hb : b ≤ 0 <;> simp [remaining_payments, hb] at h
    omega
  | succ m ih =>
    by_cases hb : b ≤ 0
    · simp [remaining_payments, hb] at h; omega
    · simp only [remaining_payments, if_neg hb] at h
      cases hi : interest_due b r F with
      | none => simp [hi] at h
      | some i =>
        simp only [hi, Option.map_eq_some'] at h
        obtain ⟨k', hk', rfl⟩ := h
        exact Nat.succ_le_succ (ih hk')

lemma remaining_payments_mono {fuel : ℕ} {b r t : ℚ} {F k : ℕ}
    (h : remaining_payments fuel b r t F = some k) :
    ∀ fuel', fuel ≤ fuel' → remaining_payments fuel' b r t F = some k := by
  induction fuel generalizing b k with
  | zero =>
    intro fuel' _
    by_cases hb : b ≤ 0 <;> simp [remaining_payments, hb] at h
    subst h
    exact remaining_payments_of_nonpos fuel' r t F hb
  | succ m ih =>
    intro fuel' hf
    by_cases hb : b ≤ 0
    · simp [remaining_payments, hb] at h
      subst h
      exact remaining_payments_of_nonpos fuel' r t F hb
    · obtain ⟨m', rfl⟩ : ∃ m', fuel' = m' + 1 := ⟨fuel' - 1, by omega⟩
      simp only [remaining_payments, if_neg hb] at h ⊢
      cases hi : interest_due b r F with
      | none => simp [hi] at h
      | some i =>
        simp only [hi, Option.map_eq_some'] at h ⊢
        obtain ⟨k', hk', rfl⟩ := h
        exact ⟨k', ih hk' m' (by omega), rfl⟩

/-- Geometric sum `1 + (1+q) + ... + (1+q)^(k-1)` of growth factors. -/
def geomSum (q : ℚ) (k : ℕ) : ℚ := ∑ i ∈ Finset.range k, (1 + q) ^ i

lemma geomSum_mul (q : ℚ) (k : ℕ) : geomSum q k * q = (1 + q) ^ k - 1 := by
  have := geom_sum_mul (1 + q) k
  simpa [geomSum] using this

lemma geomSum_nonneg {q : ℚ} (hq : 0 ≤ q) (k : ℕ) : 0 ≤ geomSum q k := by
  apply Finset.sum_nonneg
  intro i _
  positivity

lemma geomSum_succ (q : ℚ) (k : ℕ) :
    geomSum q (k + 1) = geomSum q k + (1 + q) ^ k := by
  simp [geomSum, Finset.sum_range_succ]

/-- Key loop bound: if the initial balance, grown over `fuel` periods, is
covered by `fuel` payments accumulated with interest, the loop exits within
`fuel` iterations. -/
lemma remaining_payments_isSome (r t : ℚ) (F : ℕ) (hF : F ≠ 0) :
    ∀ (fuel : ℕ) (b : ℚ), b * (1 + r / F) ^ fuel ≤ t * geomSum (r / F) fuel →
      ∃ k, remaining_payments fuel b r t F = some k := by
  intro fuel
  induction fuel with
  | zero =>
    intro b hb
    simp only [pow_zero, mul_one, geomSum, Finset.range_zero, Finset.sum_empty,
      mul_zero] at hb
    exact ⟨0, remaining_payments_of_nonpos 0 r t F hb⟩
  | succ m ih =>
    intro b hb
    by_cases h0 : b ≤ 0
    · exact ⟨0, remaining_payments_of_nonpos _ r t F h0⟩
    · set q : ℚ := r / F with hq
      have hstep : (b - (t - b * q)) * (1 + q) ^ m ≤ t * geomSum q m := by
        have e1 : (b - (t - b * q)) * (1 + q) ^ m
            = b * ((1 + q) ^ m * (1 + q)) - t * (1 + q) ^ m := by ring
        have e2 : b * (1 + q) ^ (m + 1) = b * ((1 + q) ^ m * (1 + q)) := by
          rw [pow_succ]
        rw [geomSum_succ, mul_add] at hb
        rw [e2] at hb
        linarith
      obtain ⟨k, hk⟩ := ih _ hstep
      refine ⟨k + 1, ?_⟩
      simp only [remaining_payments, if_neg h0, interest_due, if_neg hF]
      rw [hk]
      rfl

/-! ## Helper lemmas about the annuity formula -/

section Annuity

variable {P r t : ℚ} {T F : ℕ}

lemma Fq_pos (hF : 1 ≤ F) : (0 : ℚ) < F := by
  exact_mod_cast Nat.lt_of_lt_of_le Nat.zero_lt_one hF

lemma q_pos (hr : 0 < r) (hF : 1 ≤ F) : 0 < r / F := div_pos hr (Fq_pos hF)

lemma denom_pos (hr : 0 < r) (hT : 1 ≤ T) (hF : 1 ≤ F) :
    0 < (1 + r / F) ^ (T * F) - 1 := by
  have h1 : (1 : ℚ) < (1 + r / F) ^ (T * F) := by
    have hn : T * F ≠ 0 := by positivity
    exact one_lt_pow₀ (by linarith [q_pos hr hF]) hn
  linarith

/-- For a positive rate and positive term and frequency, `get_min_payment`
returns the ceiling of the annuity payment. -/
lemma get_min_payment_eq (hr : 0 < r) (hT : 1 ≤ T) (hF : 1 ≤ F) :
    get_min_payment P r T F
      = some ⌈P * ((r / F) * (1 + r / F) ^ (T * F)) / ((1 + r / F) ^ (T * F) - 1)⌉ := by
  have hD := denom_pos hr hT hF
  have hF0 : F ≠ 0 := by omega
  simp [get_min_payment, hF0, hD.ne']

/-- The annuity payment times the geometric sum of growth factors equals the
grown principal. -/
lemma annuity_mul_geomSum (hr : 0 < r) (hT : 1 ≤ T) (hF : 1 ≤ F) :
    P * ((r / F) * (1 + r / F) ^ (T * F)) / ((1 + r / F) ^ (T * F) - 1)
        * geomSum (r / F) (T * F)
      = P * (1 + r / F) ^ (T * F) := by
  have hD := denom_pos hr hT hF
  have hgs := geomSum_mul (r / F) (T * F)
  rw [div_mul_eq_mul_div, div_eq_iff hD.ne']
  rw [← hgs]
  ring

/-- Entry bound for the payoff loop at any payment `t` at least the exact
annuity payment. -/
lemma entry_bound (hr : 0 < r) (hT : 1 ≤ T) (hF : 1 ≤ F)
    (ht : P * ((r / F) * (1 + r / F) ^ (T * F)) / ((1 + r / F) ^ (T * F) - 1) ≤ t) :
    P * (1 + r / F) ^ (T * F) ≤ t * geomSum (r / F) (T * F) := by
  have hgs0 : 0 ≤ geomSum (r / F) (T * F) := geomSum_nonneg (le_of_lt (q_pos hr hF)) _
  calc P * (1 + r / F) ^ (T * F)
      = P * ((r / F) * (1 + r / F) ^ (T * F)) / ((1 + r / F) ^ (T * F) - 1)
          * geomSum (r / F) (T * F) := (annuity_mul_geomSum hr hT hF).symm
    _ ≤ t * geomSum (r / F) (T * F) := mul_le_mul_of_nonneg_right ht hgs0

/-- Any payment at least the computed minimum pays off within `T * F`
periods. -/
lemma payoff_within_term (hr : 0 < r) (hT : 1 ≤ T) (hF : 1 ≤ F)
    (m : ℤ) (hm : get_min_payment P r T F = some m) (ht : (m : ℚ) ≤ t) :
    ∃ k, remaining_payments (T * F) P r t F = some k ∧ k ≤ T * F := by
  rw [get_min_payment_eq hr hT hF] at hm
  have hmA : P * ((r / F) * (1 + r / F) ^ (T * F)) / ((1 + r / F) ^ (T * F) - 1)
      ≤ (m : ℚ) := by
    have := Int.le_ceil
      (P * ((r / F) * (1 + r / F) ^ (T * F)) / ((1 + r / F) ^ (T * F) - 1))
    simpa [Option.some_inj.mp hm] using this
  have hF0 : F ≠ 0 := by omega
  obtain ⟨k, hk⟩ := remaining_payments_isSome r t F hF0 (T * F) P
    (entry_bound hr hT hF (le_trans hmA ht))
  exact ⟨k, hk, remaining_payments_le_fuel hk⟩

/-- The ceiling payment times the number of periods covers the principal. -/
lemma min_payment_covers (hP : 0 ≤ P) (hr : 0 < r) (hT : 1 ≤ T) (hF : 1 ≤ F)
    (m : ℤ) (hm : get_min_payment P r T F = some m) :
    P ≤ (m : ℚ) * (T * F) := by
  rw [get_min_payment_eq hr hT hF] at hm
  set q : ℚ := r / F with hqdef
  set n : ℕ := T * F with hndef
  have hq := q_pos hr hF
  have hD := denom_pos hr hT hF
  have hA : P ≤ P * (q * (1 + q) ^ n) / ((1 + q) ^ n - 1) * n := by
    rw [div_mul_eq_mul_div, le_div_iff₀ hD]
    have hgs : geomSum q n ≤ (n : ℚ) * (1 + q) ^ n := by
      have hcov : ∀ i ∈ Finset.range n, (1 + q) ^ i ≤ (1 + q) ^ n :=
        fun i hi => pow_le_pow_right₀ (by linarith) (le_of_lt (Finset.mem_range.mp hi))
      calc geomSum q n ≤ (Finset.range n).card • ((1 + q) ^ n) :=
            Finset.sum_le_card_nsmul _ _ _ hcov
        _ = (n : ℚ) * (1 + q) ^ n := by simp [nsmul_eq_mul]
    have h1 : (1 + q) ^ n - 1 ≤ (n : ℚ) * (1 + q) ^ n * q := by
      calc (1 + q) ^ n - 1 = geomSum q n * q := (geomSum_mul q n).symm
        _ ≤ (n : ℚ) * (1 + q) ^ n * q := mul_le_mul_of_nonneg_right hgs hq.le
    calc P * ((1 + q) ^ n - 1) ≤ P * ((n : ℚ) * (1 + q) ^ n * q) :=
          mul_le_mul_of_nonneg_left h1 hP
      _ = P * (q * (1 + q) ^ n) * n := by ring
  have hceil : P * (q * (1 + q) ^ n) / ((1 + q) ^ n - 1) ≤ (m : ℚ) := by
    have := Int.le_ceil (P * (q * (1 + q) ^ n) / ((1 + q) ^ n - 1))
    simpa [Option.some_inj.mp hm] using this
  have hn0 : (0 : ℚ) ≤ (n : ℚ) := Nat.cast_nonneg n
  calc P ≤ P * (q * (1 + q) ^ n) / ((1 + q) ^ n - 1) * n := hA
    _ ≤ (m : ℚ) * n := mul_le_mul_of_nonneg_right hceil hn0
    _ = (m : ℚ) * (T * F) := by rw [hndef]; push_cast; ring

end Annuity

/-! ## Helper lemmas about loop termination -/

section Termination

variable {P r t : ℚ} {T F : ℕ}

/-- If the payment exceeds the interest on the starting balance, the balance
drops by at least the initial principal portion each period, so some fuel
finishes the loop. -/
lemma remaining_payments_total (B : ℚ) (hF : F ≠ 0) (hr : 0 ≤ r)
    (hi : B * (r / F) < t) :
    ∃ fuel k, remaining_payments fuel B r t F = some k := by
  have hq : 0 ≤ r / F := div_nonneg hr (Nat.cast_nonneg F)
  have hδ : 0 < t - B * (r / F) := by linarith
  have aux : ∀ fuel : ℕ, ∀ b : ℚ, b ≤ B → b ≤ (t - B * (r / F)) * fuel →
      ∃ k, remaining_payments fuel b r t F = some k := by
    intro fuel
    induction fuel with
    | zero =>
      intro b _ hb
      simp only [Nat.cast_zero, mul_zero] at hb
      exact ⟨0, remaining_payments_of_nonpos _ _ _ _ hb⟩
    | succ m ih =>
      intro b hbB hb
      by_cases h0 : b ≤ 0
      · exact ⟨0, remaining_payments_of_nonpos _ _ _ _ h0⟩
      · push_neg at h0
        have hbq : b * (r / F) ≤ B * (r / F) := mul_le_mul_of_nonneg_right hbB hq
        have hb' : b - (t - b * (r / F)) ≤ B := by linarith
        have hb'2 : b - (t - b * (r / F)) ≤ (t - B * (r / F)) * m := by
          rw [Nat.cast_succ] at hb
          nlinarith
        obtain ⟨k, hk⟩ := ih _ hb' hb'2
        refine ⟨k + 1, ?_⟩
        simp only [remaining_payments, if_neg (not_le.mpr h0), interest_due, if_neg hF]
        rw [hk]
        rfl
  obtain ⟨fuelN, hfuel⟩ := exists_nat_ge (B / (t - B * (r / F)))
  rw [div_le_iff₀ hδ] at hfuel
  obtain ⟨k, hk⟩ := aux fuelN B le_rfl
    (by linarith [mul_comm (fuelN : ℚ) (t - B * (r / F))])
  exact ⟨fuelN, k, hk⟩

/-- If the payment never exceeds the interest due, the balance never
decreases and the loop runs forever: every amount of fuel is exhausted. -/
lemma remaining_payments_none (hF : F ≠ 0) (hr : 0 ≤ r) :
    ∀ (fuel : ℕ) (b : ℚ), 0 < b → t ≤ b * (r / F) →
      remaining_payments fuel b r t F = none := by
  have hq : 0 ≤ r / F := div_nonneg hr (Nat.cast_nonneg F)
  intro fuel
  induction fuel with
  | zero =>
    intro b hb _
    simp [remaining_payments, not_le.mpr hb]
  | succ m ih =>
    intro b hb ht
    have hb' : b ≤ b - (t - b * (r / F)) := by linarith
    have hbpos' : 0 < b - (t - b * (r / F)) := lt_of_lt_of_le hb hb'
    have ht' : t ≤ (b - (t - b * (r / F))) * (r / F) :=
      le_trans ht (mul_le_mul_of_nonneg_right hb' hq)
    simp only [remaining_payments, if_neg (not_le.mpr hb), interest_due, if_neg hF]
    rw [ih _ hbpos' ht']
    rfl

/-- On a positive principal the minimum payment strictly exceeds the
first-period interest. -/
lemma min_payment_gt_interest (hP : 0 < P) (hr : 0 < r) (hT : 1 ≤ T) (hF : 1 ≤ F)
    (m : ℤ) (hm : get_min_payment P r T F = some m) (ht : (m : ℚ) ≤ t) :
    P * (r / F) < t := by
  rw [get_min_payment_eq hr hT hF] at hm
  have hq := q_pos hr hF
  have hD := denom_pos hr hT hF
  have hA : P * (r / F)
      < P * ((r / F) * (1 + r / F) ^ (T * F)) / ((1 + r / F) ^ (T * F) - 1) := by
    rw [lt_div_iff₀ hD]
    nlinarith [mul_pos hP hq]
  have hceil : P * ((r / F) * (1 + r / F) ^ (T * F)) / ((1 + r / F) ^ (T * F) - 1)
      ≤ (m : ℚ) := by
    simpa [Option.some_inj.mp hm] using
      Int.le_ceil (P * ((r / F) * (1 + r / F) ^ (T * F)) / ((1 + r / F) ^ (T * F) - 1))
  linarith

end Termination

/-! ## The claims -/

/-- Claim C1: the claim states that `get_min_payment` special-cases the
degenerate rate `annualRate = 0` and returns `ceil(P / (T*F))` directly.
The source has no such special case: with `r = 0` the denominator
`(1+r)**n - 1` is `0.0`, the division raises `ZeroDivisionError`, and the
call returns no value at all (for any principal, term and frequency). -/
theorem get_min_payment_zero_rate_raises (P : ℚ) (T F : ℕ) :
    get_min_payment P 0 T F = none := by
  rcases Nat.eq_zero_or_pos F with hF | hF
  · simp [get_min_payment, hF]
  · simp [get_min_payment, Nat.pos_iff_ne_zero.mp hF]

/-- Claim C2: the claim states that `parse_args` rejects
`num_annual_payments = 0` with a `ValueError`.  The source's check is
`args.num_annual_payments < 0`, so `0` passes validation unrejected, and the
subsequent computation then divides by zero: `runMain` on the parsed
namespace `(1000, 0.05, 30, 0, no target)` crashes for every fuel. -/
theorem parse_args_accepts_zero_frequency :
    parse_args ["1000", "0.05", "-n", "0"] ["1000", "0.05", "-n", "0"]
        (fun _ => ⟨1000, 1/20, 30, 0, none⟩)
      = Except.ok ⟨1000, 1/20, 30, 0, none⟩
    ∧ ∀ fuel, runMain fuel ⟨1000, 1/20, 30, 0, none⟩ = ExitResult.crash := by
  constructor
  · norm_num [parse_args, validate]
  · intro fuel
    norm_num [runMain, validate, main, get_min_payment]

/-- Claim C3 counterexample: the claim asserts the payoff count at the
minimum payment equals `T*F` exactly, for every `P ≥ 0`, `r ∈ [0,1]`,
`T ≥ 1`, `F ≥ 1`.  At `P = 1, r = 1, T = 2, F = 1` the minimum payment is
`⌈4/3⌉ = 2` and the loop pays off in `1 ≠ 2 = T*F` payments (the ceiling
overpays); and at `r = 0` the minimum-payment computation raises instead of
returning a value. -/
theorem min_payment_payoff_not_exact :
    get_min_payment 1 1 2 1 = some 2
    ∧ main 2 1 1 2 1 none = some (Report.payoff 2 2 1)
    ∧ (1 : ℕ) ≠ 2 * 1
    ∧ get_min_payment 12000 0 1 12 = none := by
  have h1 : get_min_payment 1 1 2 1 = some 2 := by
    norm_num [get_min_payment, Int.ceil_eq_iff]
  have h2 : remaining_payments 2 1 1 2 1 = some 1 := by
    norm_num [remaining_payments, interest_due]
  refine ⟨h1, ?_, by norm_num, by norm_num [get_min_payment]⟩
  norm_num [main, h1, h2]

/-- Claim C3 (amended): when the target payment is absent, `main` resolves it
to the computed minimum payment and always takes the payoff path; for a
positive rate the resulting payoff count is at most `term * paymentsPerYear`
(equality can fail because the payment is rounded up). -/
theorem main_default_target_takes_payoff_path (P r : ℚ) (T F : ℕ)
    (hP : 0 ≤ P) (hr : 0 < r) (hr1 : r ≤ 1) (hT : 1 ≤ T) (hF : 1 ≤ F) :
    ∃ m k, get_min_payment P r T F = some m ∧ k ≤ T * F ∧
      ∀ fuel, T * F ≤ fuel →
        main fuel P r T F none = some (Report.payoff m (m : ℚ) k) := by
  obtain ⟨m, hm⟩ : ∃ m, get_min_payment P r T F = some m :=
    ⟨_, get_min_payment_eq hr hT hF⟩
  obtain ⟨k, hk, hkle⟩ := payoff_within_term hr hT hF m hm le_rfl
  refine ⟨m, k, hm, hkle, ?_⟩
  intro fuel hfuel
  have hmono := remaining_payments_mono hk fuel hfuel
  simp [main, hm, hmono]

/-- Witness for C3 (amended) at `P = 1, r = 1/2, T = 1, F = 1`. -/
theorem main_default_target_takes_payoff_path_witness :
    ∃ m k, get_min_payment 1 (1/2) 1 1 = some m ∧ k ≤ 1 * 1 ∧
      ∀ fuel, 1 * 1 ≤ fuel →
        main fuel 1 (1/2) 1 1 none = some (Report.payoff m (m : ℚ) k) :=
  main_default_target_takes_payoff_path 1 (1/2) 1 1 (by norm_num) (by norm_num)
    (by norm_num) (by norm_num) (by norm_num)

/-- Claim C4: for `P ≥ 0`, `r ∈ (0,1]`, `T ≥ 1`, `F ≥ 1` and any target
payment at least the computed minimum, the payoff loop finishes within
`T * F` iterations and its count is at most `T * F`. -/
theorem remaining_payments_le_term (P r t : ℚ) (T F : ℕ) (m : ℤ)
    (hP : 0 ≤ P) (hr : 0 < r) (hr1 : r ≤ 1) (hT : 1 ≤ T) (hF : 1 ≤ F)
    (hm : get_min_payment P r T F = some m) (ht : (m : ℚ) ≤ t) :
    ∃ k, k ≤ T * F ∧ ∀ fuel, T * F ≤ fuel →
      remaining_payments fuel P r t F = some k := by
  obtain ⟨k, hk, hkle⟩ := payoff_within_term hr hT hF m hm ht
  exact ⟨k, hkle, fun fuel hf => remaining_payments_mono hk fuel hf⟩

/-- Witness for C4 at `P = 1, r = 1/2, t = 2, T = 1, F = 1`. -/
theorem remaining_payments_le_term_witness :
    ∃ k, k ≤ 1 * 1 ∧ ∀ fuel, 1 * 1 ≤ fuel →
      remaining_payments fuel 1 (1/2) 2 1 = some k :=
  remaining_payments_le_term 1 (1/2) 2 1 1 2 (by norm_num) (by norm_num)
    (by norm_num) (by norm_num) (by norm_num)
    (by norm_num [get_min_payment, Int.ceil_eq_iff]) (by norm_num)

/-- Claim C5: the claim states `get_min_payment(P,r,T,F) * (T*F) ≥ P` for
every `r ∈ [0,1]`.  For `r ∈ (0,1]` the returned ceiling payment does cover
the principal; at `r = 0` the computation raises `ZeroDivisionError` and
returns no value at all (the spec's required special case is missing from
the code), witnessed here at `P = 12000, T = 1, F = 12`. -/
theorem min_payment_times_periods_covers_principal :
    (∀ (P r : ℚ) (T F : ℕ) (m : ℤ), 0 ≤ P → 0 < r → r ≤ 1 → 1 ≤ T → 1 ≤ F →
        get_min_payment P r T F = some m → P ≤ (m : ℚ) * (T * F))
    ∧ get_min_payment 12000 0 1 12 = none := by
  constructor
  · intro P r T F m hP hr _ hT hF hm
    exact min_payment_covers hP hr hT hF m hm
  · norm_num [get_min_payment]

/-- Witness for C5 at `P = 1, r = 1/2, T = 1, F = 1, m = 2`. -/
theorem min_payment_times_periods_covers_principal_witness :
    (1 : ℚ) ≤ ((2 : ℤ) : ℚ) * (((1 : ℕ) : ℚ) * ((1 : ℕ) : ℚ)) :=
  min_payment_times_periods_covers_principal.1 1 (1/2) 1 1 2 (by norm_num)
    (by norm_num) (by norm_num) (by norm_num) (by norm_num)
    (by norm_num [get_min_payment, Int.ceil_eq_iff])

/-- Claim C6: in `main`, a supplied target payment strictly below the
computed minimum yields the "payment too low" outcome for every fuel, so the
payoff loop's behaviour is never consulted; otherwise the payoff loop's
result is reported alongside the payment used. -/
theorem main_below_minimum_guard :
    (∀ (fuel : ℕ) (P r t : ℚ) (T F : ℕ) (m : ℤ),
        get_min_payment P r T F = some m → t < (m : ℚ) →
        main fuel P r T F (some t) = some (Report.tooLow m))
    ∧ (∀ (fuel : ℕ) (P r t : ℚ) (T F : ℕ) (m : ℤ) (k : ℕ),
        get_min_payment P r T F = some m → (m : ℚ) ≤ t →
        remaining_payments fuel P r t F = some k →
        main fuel P r T F (some t) = some (Report.payoff m t k)) := by
  constructor
  · intro fuel P r t T F m hm hlt
    simp [main, hm, hlt]
  · intro fuel P r t T F m k hm hle hk
    simp [main, hm, not_lt.mpr hle, hk]

/-- Witness for C6 at `P = 1, r = 1/2, T = 1, F = 1`, target `1` below the
minimum `2`, with no fuel at all. -/
theorem main_below_minimum_guard_witness :
    main 0 1 (1/2) 1 1 (some 1) = some (Report.tooLow 2) :=
  main_below_minimum_guard.1 0 1 (1/2) 1 1 1 2
    (by norm_num [get_min_payment, Int.ceil_eq_iff]) (by norm_num)

/-- Claim C7: if the target payment strictly exceeds the interest due on the
starting balance (so the principal portion stays positive at every step),
the payoff loop terminates with a finite count; conversely if the target
payment is at or below the interest due, the balance never decreases and no
amount of fuel makes the loop return; and the positive-portion precondition
indeed holds whenever the target is at least the computed minimum payment
and the rate is positive. -/
theorem remaining_payments_termination :
    (∀ (B r t i : ℚ) (F : ℕ), 0 < B → 0 ≤ r → 1 ≤ F →
        interest_due B r F = some i → i < t →
        ∃ fuel k, remaining_payments fuel B r t F = some k)
    ∧ (∀ (B r t i : ℚ) (F : ℕ), 0 < B → 0 ≤ r → 1 ≤ F →
        interest_due B r F = some i → t ≤ i →
        ∀ fuel, remaining_payments fuel B r t F = none)
    ∧ (∀ (P r t : ℚ) (T F : ℕ) (m : ℤ), 0 < P → 0 < r → 1 ≤ T → 1 ≤ F →
        get_min_payment P r T F = some m → (m : ℚ) ≤ t →
        ∃ i, interest_due P r F = some i ∧ i < t) := by
  refine ⟨?_, ?_, ?_⟩
  · intro B r t i F _ hr hF hi hlt
    have hF0 : F ≠ 0 := by omega
    simp only [interest_due, if_neg hF0, Option.some_inj] at hi
    subst hi
    exact remaining_payments_total B hF0 hr hlt
  · intro B r t i F hB hr hF hi hti
    have hF0 : F ≠ 0 := by omega
    simp only [interest_due, if_neg hF0, Option.some_inj] at hi
    subst hi
    exact fun fuel => remaining_payments_none hF0 hr fuel B hB hti
  · intro P r t T F m hP hr hT hF hm ht
    have hF0 : F ≠ 0 := by omega
    exact ⟨P * (r / F), by simp [interest_due, hF0],
      min_payment_gt_interest hP hr hT hF m hm ht⟩

/-- Witness for C7 at `B = 1, r = 0, t = 1, F = 1`: the interest due is `0`,
below the payment `1`, and the loop terminates. -/
theorem remaining_payments_termination_witness :
    ∃ fuel k, remaining_payments fuel 1 0 1 1 = some k :=
  remaining_payments_termination.1 1 0 1 0 1 (by norm_num) (by norm_num)
    (by norm_num) (by norm_num [interest_due]) (by norm_num)

/-- Claim C8: the claim states that every valid input yields the printed
report and exit status 0.  Validation failures do exit via the single
message (first conjunct, at a negative mortgage amount), but the valid input
`(12000, rate 0, defaults)` passes validation and then crashes with an
uncaught `ZeroDivisionError` (stack trace, non-zero exit) for every fuel,
contradicting the claim. -/
theorem valid_zero_rate_input_crashes :
    (∀ fuel, runMain fuel ⟨-1, 0, 30, 12, none⟩
      = ExitResult.validationError "mortgage amount must be positive")
    ∧ validate ⟨12000, 0, 30, 12, none⟩ = Except.ok ⟨12000, 0, 30, 12, none⟩
    ∧ ∀ fuel, runMain fuel ⟨12000, 0, 30, 12, none⟩ = ExitResult.crash := by
  refine ⟨?_, ?_, ?_⟩
  · intro fuel
    norm_num [runMain, validate]
  · norm_num [validate]
  · intro fuel
    norm_num [runMain, validate, main, get_min_payment]

/-- Claim C9: the return value of `parse_args` is independent of its
`arglist` parameter: the body calls `parser.parse_args()` with no argument,
so only the process-level `sys.argv` (and the argparse library's reading of
it) determines the result. -/
theorem parse_args_ignores_arglist (arglist₁ arglist₂ sysArgv : List String)
    (argparseOf : List String → Args) :
    parse_args arglist₁ sysArgv argparseOf = parse_args arglist₂ sysArgv argparseOf := rfl

/-- Claim C10: a starting balance `≤ 0` makes `remaining_payments` return
`0` immediately: the `while` guard fails before any iteration, for every
fuel, every rate and target, and every frequency (including `0`, where
calling `interest_due` would raise). -/
theorem remaining_payments_nonpos_balance (fuel : ℕ) (b r t : ℚ) (F : ℕ)
    (hb : b ≤ 0) : remaining_payments fuel b r t F = some 0 :=
  remaining_payments_of_nonpos fuel r t F hb

/-- Witness for C10 at balance `-1` with frequency `0` (where one loop
iteration would raise in `interest_due`). -/
theorem remaining_payments_nonpos_balance_witness :
    remaining_payments 3 (-1) (1/2) 5 0 = some 0 :=
  remaining_payments_nonpos_balance 3 (-1) (1/2) 5 0 (by norm_num)

end Mortgage
